import Mathlib

/-!
Verification of the trace-event importer of node-big-rig
(src/lib/third_party/tracing/extras/importer/trace_event_importer.js and
src/lib/third_party/tracing/model/model.js) against its specification.

The JavaScript source is shallowly embedded: each importer routine relevant
to the checked properties is translated into an executable Lean function.
Timestamps are rationals (microseconds in the raw events, milliseconds in
the model).  JavaScript dictionaries are association lists, and code paths
that would raise a runtime TypeError are modelled with Except.
-/

namespace BigRig

/-- JavaScript runtime errors that the modelled code can raise. -/
inductive JsError where
  | typeError : JsError
  | jsError (msg : String)
deriving DecidableEq, Repr

/-- JavaScript truthiness of an optional string field. -/
def strTruthy : Option String → Bool
  | none => false
  | some s => s != ""

/-- A dynamic argument value, as found in an event's args bag. -/
inductive ArgVal where
  | num (q : Rat)
  | str (s : String)
  | boolean (b : Bool)
  | nullv
deriving DecidableEq, Repr

/-- JavaScript truthiness of an argument value. -/
def ArgVal.truthy : ArgVal → Bool
  | .num q => q != 0
  | .str s => s != ""
  | .boolean b => b
  | .nullv => false

/-- JavaScript string coercion of an optional argument value
(undefined coerces to the string "undefined"). -/
def argValToString : Option ArgVal → String
  | none => "undefined"
  | some (.num q) => toString q
  | some (.str s) => s
  | some (.boolean b) => toString b
  | some .nullv => "null"

/-- An args bag: an insertion-ordered JavaScript object. -/
abbrev Args := List (String × ArgVal)

/-- Dictionary lookup in an args bag (first binding wins, as in a JS object
no key is bound twice; our association lists keep the first binding). -/
def Args.lookup (a : Args) (k : String) : Option ArgVal :=
  List.lookup k a

/-- An import warning record, as passed to model.importWarning. -/
structure Warning where
  wtype : String
  message : String
deriving DecidableEq, Repr

/-- A model timestamp in milliseconds, stored exactly as an integer count
of thousandths of a millisecond (one thousandth of a millisecond is one
microsecond).  Raw event timestamps are integer microseconds, so this
representation is exact, and ordering, addition and subtraction of model
times coincide with those on the stored integers. -/
structure Ms where
  thousandths : Int
deriving DecidableEq, Repr

instance : LE Ms := ⟨fun a b => a.thousandths ≤ b.thousandths⟩

instance : LT Ms := ⟨fun a b => a.thousandths < b.thousandths⟩

instance (a b : Ms) : Decidable (a ≤ b) :=
  inferInstanceAs (Decidable (a.thousandths ≤ b.thousandths))

instance (a b : Ms) : Decidable (a < b) :=
  inferInstanceAs (Decidable (a.thousandths < b.thousandths))

instance : Sub Ms := ⟨fun a b => ⟨a.thousandths - b.thousandths⟩⟩

instance : Add Ms := ⟨fun a b => ⟨a.thousandths + b.thousandths⟩⟩

/-- The larger of two model timestamps. -/
def Ms.maxOf (a b : Ms) : Ms := if a.thousandths ≤ b.thousandths then b else a

/-- Failure of the non-strict order is the reversed strict order. -/
theorem Ms.not_le {a b : Ms} : ¬ a ≤ b ↔ b < a := Int.not_le

/-- Modelled from the spec: tr.b.u.Units.timestampFromUs (units.js is not in
the repository snapshot).  Input timestamps are microseconds and the model's
internal unit is milliseconds, so the conversion divides by 1000 — here the
exact quotient kept as a thousandths count. -/
def timestampFromUs (us : Int) : Ms := ⟨us⟩

/-- Modelled from the spec: tr.b.u.Units.maybeTimestampFromUs, the
undefined-tolerant variant of timestampFromUs. -/
def maybeTimestampFromUs (us : Option Int) : Option Ms :=
  us.map timestampFromUs

/-- Whether pat starts the character list s. -/
def charsStartWith : List Char → List Char → Bool
  | [], _ => true
  | _ :: _, [] => false
  | p :: ps, c :: cs => p == c && charsStartWith ps cs

/-- Whether pat occurs contiguously anywhere in the character list s. -/
def charsContain (s pat : List Char) : Bool :=
  match s with
  | [] => charsStartWith pat []
  | _ :: rest => charsStartWith pat s || charsContain rest pat

/-- JavaScript String.indexOf(pat) > -1, i.e. substring containment. -/
def strContains (s pat : String) : Bool :=
  charsContain s.toList pat.toList

/-- A thread is identified by its process id and thread id; the importer
creates processes and threads lazily, so for the assembled slices we only
track this identifying pair. -/
structure ThreadRef where
  pid : Int
  tid : Int
deriving DecidableEq, Repr

/-- A raw trace event record, restricted to the fields the importer reads. -/
structure RawEvent where
  ph : Char
  cat : Option String := none
  name : Option String := none
  id : Option String := none
  pid : Int := 0
  tid : Int := 0
  ts : Int := 0
  dur : Option Int := none
  tts : Option Int := none
  tdur : Option Int := none
  args : Option Args := none
  argsStripped : Bool := false
  flow_in : Bool := false
  flow_out : Bool := false
  bind_id : Option String := none
  bp : Option String := none
  s : Option Char := none
  use_async_tts : Bool := false
deriving DecidableEq, Repr

/-! ### canImport (TraceEventImporter.canImport) -/

/-- The shapes of the traceEvents field that canImport discriminates:
an array (with the truthiness of the ph field of its first element, none
meaning the array is empty), or some other truthy value. -/
inductive TraceEventsVal where
  | arrVal (firstPh : Option (Option Bool))
  | otherTruthy
deriving DecidableEq, Repr

/-- The input values fed to TraceEventImporter.canImport: a string, an
array (firstElemPh records whether a first element exists, whether it has
a ph field and that field's truthiness), or a plain object.  For an object,
samples records the length of the samples array if defined, and
stackFramesDefined whether stackFrames is defined. -/
inductive CanImportInput where
  | jstr (s : String)
  | jarr (firstElemPh : Option (Option Bool))
  | jobj (traceEvents : Option TraceEventsVal) (samples : Option Nat)
      (stackFramesDefined : Bool)
deriving DecidableEq, Repr

/-- Translation of TraceEventImporter.canImport.  Reading
eventData.samples.length when samples is undefined raises a TypeError,
hence the Except result. -/
def canImport : CanImportInput → Except JsError Bool
  | .jstr s =>
      let t := s.trim
      .ok (t.get? 0 == some '{' || t.get? 0 == some '[')
  | .jarr firstElemPh =>
      -- eventData instanceof Array; eventData.length && eventData[0].ph.
      -- An array has no traceEvents property, so the later branch is skipped.
      match firstElemPh with
      | some (some b) => .ok b
      | _ => .ok false
  | .jobj traceEvents samples stackFramesDefined =>
      match traceEvents with
      | some (.arrVal firstPh) =>
          if firstPh == some (some true) then .ok true
          else
            match samples with
            | none => .error .typeError  -- eventData.samples.length throws
            | some n => .ok (decide (0 < n) && stackFramesDefined)
      | some .otherTruthy => .ok false
      | none => .ok false

/-- The acceptance predicate exactly as the claim states it: a string whose
first character after trimming is a brace or bracket, or an array whose
first element has a ph field, or an object whose traceEvents is such an
array, or an object whose samples and stackFrames fields are present. -/
def canImportClaimed : CanImportInput → Bool
  | .jstr s =>
      let t := s.trim
      t.get? 0 == some '{' || t.get? 0 == some '['
  | .jarr firstElemPh =>
      match firstElemPh with
      | some (some _) => true
      | _ => false
  | .jobj traceEvents samples stackFramesDefined =>
      (match traceEvents with
       | some (.arrVal (some (some _))) => true
       | _ => false)
      || (samples.isSome && stackFramesDefined)

/-- Whether traceEvents is an array whose first element does not have a
truthy ph (including the empty array): the shapes on which canImport falls
through to the samples/stackFrames test. -/
def traceEventsFallsThrough : Option TraceEventsVal → Bool
  | some (.arrVal firstPh) => firstPh != some (some true)
  | _ => false

/-- The amended acceptance condition, stated declaratively: a trimmed
string starting with a brace or bracket; a nonempty array whose first
element has a truthy ph; an object whose traceEvents array starts with a
truthy-ph element; or an object whose traceEvents array falls through and
whose samples array is nonempty with stackFrames defined. -/
def canImportAccepts : CanImportInput → Bool
  | .jstr s =>
      let t := s.trim
      t.get? 0 == some '{' || t.get? 0 == some '['
  | .jarr firstElemPh => firstElemPh == some (some true)
  | .jobj traceEvents samples stackFramesDefined =>
      traceEvents == some (.arrVal (some (some true)))
      || (traceEventsFallsThrough traceEvents
          && decide (0 < samples.getD 0) && stackFramesDefined)

/-- The inputs on which the amended claim says canImport throws a
TypeError: an object whose traceEvents array falls through to the samples
test while samples is undefined. -/
def canImportThrows : CanImportInput → Bool
  | .jobj traceEvents none _ => traceEventsFallsThrough traceEvents
  | _ => false

/-! ### Complete (X) events: processCompleteEvent -/

/-- The flow phase stamped onto a complete event that carries flow
information (the PRODUCER / CONSUMER / STEP constants). -/
inductive FlowPhase where
  | producer
  | consumer
  | step
deriving DecidableEq, Repr

/-- deepCopyIfNeeded_ / deepCopyAlways_: an undefined args bag becomes an
empty object; copying is the identity on our immutable values. -/
def deepCopyIfNeeded (a : Option Args) : Args := a.getD []

/-- True when the category of the event contains 'trace_event_overhead'
(event.cat !== undefined && event.cat.indexOf(...) > -1). -/
def catContainsOverhead (e : RawEvent) : Bool :=
  match e.cat with
  | some c => strContains c "trace_event_overhead"
  | none => false

/-- The argument tuple that processCompleteEvent passes to
SliceGroup.pushCompleteSlice (slice_group.js is outside the snapshot, so
the call itself is recorded). -/
structure PushedCompleteSlice where
  cat : Option String
  title : Option String
  start : Ms
  duration : Option Ms
  cpuStart : Option Ms
  cpuDuration : Option Ms
  args : Args
  argsStripped : Bool
  bindId : Option String
deriving DecidableEq, Repr

/-- What processCompleteEvent did for one X event: the thread receiving
the slice, the flow phase stamped onto the event, and the pushed slice. -/
structure CompleteEventResult where
  thread : ThreadRef
  flowPhase : Option FlowPhase
  pushed : PushedCompleteSlice
deriving DecidableEq, Repr

/-- Translation of TraceEventImporter.processCompleteEvent.  Overhead
events are dropped (undefined result); otherwise the event's flowPhase is
set from flow_in/flow_out and a closed slice with the event's ts and dur
is pushed onto the thread's slice group.  The function performs no
importWarning call. -/
def processCompleteEvent (e : RawEvent) : Option CompleteEventResult :=
  if catContainsOverhead e then none
  else
    let flowPhase : Option FlowPhase :=
      if e.flow_out then
        if e.flow_in then some .step else some .producer
      else if e.flow_in then some .consumer
      else none
    some
      { thread := ⟨e.pid, e.tid⟩
        flowPhase := flowPhase
        pushed :=
          { cat := e.cat
            title := e.name
            start := timestampFromUs e.ts
            duration := maybeTimestampFromUs e.dur
            cpuStart := maybeTimestampFromUs e.tts
            cpuDuration := maybeTimestampFromUs e.tdur
            args := deepCopyIfNeeded e.args
            argsStripped := e.argsStripped
            bindId := e.bind_id } }

/-! ### Duration (B/E) and instant (I/i/R) events -/

/-- An open synchronous slice on a thread's slice group. -/
structure OpenSlice where
  cat : Option String
  title : Option String
  start : Ms
  args : Args
deriving DecidableEq, Repr

/-- A closed synchronous slice. -/
structure ClosedSlice where
  cat : Option String
  title : Option String
  start : Ms
  duration : Ms
  args : Args
deriving DecidableEq, Repr

/-- Modelled from the spec: the per-thread SliceGroup (slice_group.js is
outside the snapshot).  It keeps the stack of open slices, the closed
slices, and the greatest previously observed timestamp. -/
structure SliceGroupM where
  openSlices : List OpenSlice := []
  slices : List ClosedSlice := []
  maxTs : Option Ms := none
deriving DecidableEq, Repr

/-- Modelled from the spec: a begin or end timestamp is valid unless it is
smaller than the greatest previously observed timestamp in this group. -/
def SliceGroupM.isTimestampValidForBeginOrEnd (g : SliceGroupM) (ts : Ms) :
    Bool :=
  match g.maxTs with
  | none => true
  | some m => m ≤ ts

/-- Modelled from the spec: record a newly observed timestamp. -/
def SliceGroupM.observe (g : SliceGroupM) (ts : Ms) : SliceGroupM :=
  { g with maxTs := some (match g.maxTs with
                          | none => ts
                          | some m => Ms.maxOf m ts) }

/-- Modelled from the spec: SliceGroup.beginSlice pushes a new open slice. -/
def SliceGroupM.beginSlice (g : SliceGroupM) (cat : Option String)
    (title : Option String) (ts : Ms) (args : Args) : SliceGroupM :=
  { g.observe ts with
    openSlices := ⟨cat, title, ts, args⟩ :: g.openSlices }

/-- Modelled from the spec: SliceGroup.endSlice closes the top open slice
at the given timestamp (none when no slice is open). -/
def SliceGroupM.endSliceTop (g : SliceGroupM) (ts : Ms) :
    Option (SliceGroupM × ClosedSlice) :=
  match g.openSlices with
  | [] => none
  | top :: rest =>
      let closed : ClosedSlice :=
        ⟨top.cat, top.title, top.start, ts - top.start, top.args⟩
      some ({ g.observe ts with
              openSlices := rest
              slices := g.slices ++ [closed] }, closed)

/-- JS object assignment dst[k] = v: an existing key keeps its position,
a new key is appended. -/
def Args.set (a : Args) (k : String) (v : ArgVal) : Args :=
  if (Args.lookup a k).isSome then
    a.map (fun kv => if kv.1 = k then (k, v) else kv)
  else a ++ [(k, v)]

/-- Translation of TraceEventImporter.mergeArgsInto_: copy each source
argument into the destination, warning on every name that is already
bound (last write wins). -/
def mergeArgsInto (dst : Args) (src2 : Args) (eventName : String) :
    Args × List Warning :=
  src2.foldl
    (fun acc kv =>
      let ws :=
        if (Args.lookup acc.1 kv.1).isSome then
          acc.2 ++ [⟨"arg_merge_error",
            "Different phases of " ++ eventName ++
              " provided values for argument " ++ kv.1 ++ "." ++
              " The last provided value will be used."⟩]
        else acc.2
      (Args.set acc.1 kv.1 kv.2, ws))
    (dst, [])

/-- Translation of TraceEventImporter.processDurationEvent over the
modelled slice group of the event's thread.  The result is the updated
group and the warnings emitted; the impossible instant-scope branch
raises the source's Error. -/
def processDurationEvent (g : SliceGroupM) (e : RawEvent) :
    Except JsError (SliceGroupM × List Warning) :=
  let ts := timestampFromUs e.ts
  if !g.isTimestampValidForBeginOrEnd ts then
    .ok (g, [⟨"duration_parse_error", "Timestamps are moving backward."⟩])
  else if e.ph = 'B' then
    .ok (g.beginSlice e.cat e.name ts (deepCopyIfNeeded e.args), [])
  else if e.ph = 'I' ∨ e.ph = 'i' ∨ e.ph = 'R' then
    if e.s ≠ none ∧ e.s ≠ some 't' then
      .error (.jsError "This should never happen")
    else
      let g1 := g.beginSlice e.cat e.name ts (deepCopyIfNeeded e.args)
      match g1.endSliceTop ts with
      | some (g2, _) => .ok (g2, [])
      | none => .ok (g1, [])  -- unreachable: a slice was just opened
  else
    if g.openSlices.length = 0 then
      .ok (g, [⟨"duration_parse_error",
        "E phase event without a matching B phase event."⟩])
    else
      match g.endSliceTop ts with
      | none => .ok (g, [])  -- unreachable: openSlices is nonempty
      | some (g2, closed) =>
          let titleWarns : List Warning :=
            if strTruthy e.name ∧ closed.title ≠ e.name then
              [⟨"title_match_error",
                "Titles do not match. Title is " ++
                  argValToString (closed.title.map ArgVal.str) ++
                  " in openSlice, and is " ++
                  argValToString (e.name.map ArgVal.str) ++ " in endSlice"⟩]
            else []
          let merged := mergeArgsInto closed.args (e.args.getD [])
            (argValToString (closed.title.map ArgVal.str))
          let g3 := { g2 with
            slices := g2.slices.dropLast ++
              [{ closed with args := merged.1 }] }
          .ok (g3, titleWarns ++ merged.2)

/-! ### Counter (C) events: processCounterEvent -/

/-- A counter series: its name and the pushed samples (timestamp, value).
The color id is omitted: it comes from the external color scheme. -/
structure CounterSeriesM where
  name : String
  samples : List (Ms × ArgVal)
deriving DecidableEq, Repr

/-- A counter owned by a process: category, name and series. -/
structure CounterM where
  cat : Option String
  name : String
  series : List CounterSeriesM
deriving DecidableEq, Repr

/-- All counters of the model, keyed by (pid, category, counter name):
Process.getOrCreateCounter's lazily created store, flattened over
processes.  Modelled from the spec: counters are keyed by (category,
name) within their process. -/
abbrev CounterStore := List ((Int × Option String × String) × CounterM)

/-- Lookup in a keyed store. -/
def storeLookup (st : CounterStore) (k : Int × Option String × String) :
    Option CounterM :=
  List.lookup k st

/-- Replace the binding of a key (or append it). -/
def storeSet (st : CounterStore) (k : Int × Option String × String)
    (c : CounterM) : CounterStore :=
  if (List.lookup k st).isSome then
    st.map (fun kv => if kv.1 = k then (k, c) else kv)
  else st ++ [(k, c)]

/-- Remove a key (delete ctr.parent.counters[ctr.name]). -/
def storeRemove (st : CounterStore) (k : Int × Option String × String) :
    CounterStore :=
  st.filter (fun kv => kv.1 ≠ k)

/-- The counter name computed by processCounterEvent: event.name, with
'[' + event.id + ']' appended when the event has an id. -/
def counterEventName (e : RawEvent) : String :=
  match e.id with
  | some i => argValToString (e.name.map ArgVal.str) ++ "[" ++ i ++ "]"
  | none => argValToString (e.name.map ArgVal.str)

/-- The value pushed for one series: event.args[name] if truthy, else 0
(the JavaScript conditional coerces falsy values to the literal 0). -/
def counterSampleVal (a : Args) (name : String) : ArgVal :=
  match Args.lookup a name with
  | some v => if v.truthy then v else .num 0
  | none => .num 0

/-- Translation of TraceEventImporter.processCounterEvent.  A counter
with no series yet gets one series per args key; if it still has none, a
counter_parse_error is emitted and the counter is deleted from its
process.  Otherwise one sample per existing series is appended at the
event's timestamp.  When the series already exist and event.args is
undefined, reading event.args[series.name] raises a TypeError. -/
def processCounterEvent (st : CounterStore) (e : RawEvent) :
    Except JsError (CounterStore × List Warning) :=
  let ctrName := counterEventName e
  let key : Int × Option String × String := (e.pid, e.cat, ctrName)
  let ctr0 := (storeLookup st key).getD ⟨e.cat, ctrName, []⟩
  let init : CounterM ⊕ (CounterStore × List Warning) :=
    if ctr0.series.length = 0 then
      let withSeries : CounterM :=
        { ctr0 with
          series := (e.args.getD []).map (fun kv => ⟨kv.1, []⟩) }
      if withSeries.series.length = 0 then
        .inr (storeRemove st key,
          [⟨"counter_parse_error",
            "Expected counter " ++ argValToString (e.name.map ArgVal.str) ++
              " to have at least one argument to use as a value."⟩])
      else .inl withSeries
    else .inl ctr0
  match init with
  | .inr dropped => .ok dropped
  | .inl ctr1 =>
      match e.args with
      | none =>
          -- event.args[series.name] on an undefined args bag: the first
          -- series iteration throws (counters reaching this point have at
          -- least one series)
          .error .typeError
      | some a =>
          let ts := timestampFromUs e.ts
          let ctr2 : CounterM :=
            { ctr1 with
              series := ctr1.series.map (fun sr =>
                { sr with
                  samples := sr.samples ++ [(ts, counterSampleVal a sr.name)] }) }
          .ok (storeSet st key ctr2, [])

/-- Where processInstantEvent routes one I/i/R event, and with what
effect. -/
inductive InstantOutcome where
  | jit
  | duration (res : Except JsError (SliceGroupM × List Warning))
  | globalInstant (name : Option String) (start : Ms)
      (warnings : List Warning)
  | processInstant (pid : Int) (name : Option String) (start : Ms)
      (warnings : List Warning)
  | badScope (warnings : List Warning)
deriving Repr

/-- Translation of TraceEventImporter.processInstantEvent: V8 JIT events
go to the code-map handler; thread-scoped events (s absent or 't') are
degenerate duration events; 'g' and 'p' scoped events become global and
process instant events; anything else warns. -/
def processInstantEvent (g : SliceGroupM) (e : RawEvent) : InstantOutcome :=
  if e.name = some "JitCodeAdded" ∨ e.name = some "JitCodeMoved" then
    .jit
  else if e.s = some 't' ∨ e.s = none then
    .duration (processDurationEvent g e)
  else
    match e.s with
    | some 'g' => .globalInstant e.name (timestampFromUs e.ts) []
    | some 'p' => .processInstant e.pid e.name (timestampFromUs e.ts) []
    | _ => .badScope [⟨"instant_parse_error",
        "I phase event with unknown \"s\" field value."⟩]

/-! ### Model.getAllThreads (model.js) -/

/-- A thread of the model graph, reduced to its identity. -/
structure ThreadM where
  pid : Int
  tid : Int
deriving DecidableEq, Repr

/-- A process of the model graph: its pid and its threads keyed by tid. -/
structure ProcessM where
  pid : Int
  threads : List (Int × ThreadM)
deriving DecidableEq, Repr

/-- The kernel's thread mapping. -/
structure KernelM where
  threads : List (Int × ThreadM)
deriving DecidableEq, Repr

/-- The model root, reduced to what getAllThreads reads. -/
structure ModelM where
  kernel : KernelM
  processes : List (Int × ProcessM)
deriving DecidableEq, Repr

/-- The first loop of Model.getAllThreads: for each tid in kernel.threads
it pushes process.threads[tid], but 'process' is the var declared in the
second loop; hoisting leaves it undefined while this loop runs, so the
first kernel thread entry raises a TypeError. -/
def getAllThreadsKernelLoop :
    List (Int × ThreadM) → Except JsError (List ThreadM)
  | [] => .ok []
  | _ :: _ => .error .typeError

/-- Translation of Model.getAllThreads: run the (broken) kernel loop,
then collect the threads of every process. -/
def getAllThreads (m : ModelM) : Except JsError (List ThreadM) :=
  match getAllThreadsKernelLoop m.kernel.threads with
  | .error e => .error e
  | .ok fromKernel =>
      .ok (fromKernel ++
        (m.processes.map (fun p => p.2.threads.map Prod.snd)).flatten)

/-! ### Memory allocator dump edges (createMemoryDumps_) -/

/-- A link between memory allocator dumps (MemoryAllocatorDumpLink).
Back-edges store GUIDs rather than owning references. -/
structure MALink where
  source : String
  target : String
  importance : Option Rat
deriving DecidableEq, Repr

/-- A memory allocator dump, restricted to the fields touched by edge
processing. -/
structure MADump where
  fullName : String
  owns : Option MALink := none
  ownedBy : List MALink := []
  retains : List MALink := []
  retainedBy : List MALink := []
deriving DecidableEq, Repr

/-- The allMemoryAllocatorDumpsByGuid index. -/
abbrev DumpsByGuid := List (String × MADump)

/-- Index lookup by GUID. -/
def guidLookup (ds : DumpsByGuid) (g : String) : Option MADump :=
  List.lookup g ds

/-- Replace the dump stored under an existing GUID. -/
def guidUpdate (ds : DumpsByGuid) (g : String) (d : MADump) : DumpsByGuid :=
  ds.map (fun kv => cond (kv.1 == g) (g, d) kv)

/-- One raw entry of args.dumps.allocators_graph. -/
structure RawEdge where
  source : Option String := none
  target : Option String := none
  edgeType : Option String := none
  importance : Option Rat := none
deriving DecidableEq, Repr

/-- Translation of the edge-processing forEach body inside
createMemoryDumps_: resolve source and target dumps by GUID (warning and
no link when either is missing), then install an ownership link (at most
one per source; a second one warns and leaves the first unchanged) or
append a retention link; unknown types warn. -/
def processEdge (ds : DumpsByGuid) (edge : RawEdge) :
    DumpsByGuid × List Warning :=
  match edge.source.bind (guidLookup ds) with
  | none =>
      (ds, [⟨"memory_dump_parse_error",
        "Edge is missing source memory allocator dump (GUID=" ++
          argValToString (edge.source.map ArgVal.str) ++ ")"⟩])
  | some sourceDump =>
      match edge.target.bind (guidLookup ds) with
      | none =>
          (ds, [⟨"memory_dump_parse_error",
            "Edge is missing target memory allocator dump (GUID=" ++
              argValToString (edge.target.map ArgVal.str) ++ ")"⟩])
      | some _targetDump =>
          let sguid := edge.source.getD ""
          let tguid := edge.target.getD ""
          let link : MALink := ⟨sguid, tguid, edge.importance⟩
          match edge.edgeType with
          | some "ownership" =>
              if sourceDump.owns.isSome then
                (ds, [⟨"memory_dump_parse_error",
                  "Memory allocator dump " ++ sourceDump.fullName ++
                    " (GUID=" ++ sguid ++ ") already owns a memory" ++
                    " allocator dump (" ++
                    argValToString ((sourceDump.owns.bind (fun l =>
                      (guidLookup ds l.target).map
                        MADump.fullName)).map ArgVal.str) ++ ")."⟩])
              else
                let ds1 := guidUpdate ds sguid
                  { sourceDump with owns := some link }
                let ds2 :=
                  match guidLookup ds1 tguid with
                  | some td => guidUpdate ds1 tguid
                      { td with ownedBy := td.ownedBy ++ [link] }
                  | none => ds1
                (ds2, [])
          | some "retention" =>
              let ds1 := guidUpdate ds sguid
                { sourceDump with retains := sourceDump.retains ++ [link] }
              let ds2 :=
                match guidLookup ds1 tguid with
                | some td => guidUpdate ds1 tguid
                    { td with retainedBy := td.retainedBy ++ [link] }
                | none => ds1
              (ds2, [])
          | t =>
              (ds, [⟨"memory_dump_parse_error",
                "Invalid edge type: " ++
                  argValToString (t.map ArgVal.str) ++
                  " (source=" ++ sguid ++ ", target=" ++ tguid ++
                  ", importance=" ++
                  argValToString (edge.importance.map ArgVal.num) ++ ")."⟩])

/-- All edges of one process event's allocators_graph, in order. -/
def processEdges (ds : DumpsByGuid) (edges : List RawEdge) :
    DumpsByGuid × List Warning :=
  edges.foldl
    (fun acc edge =>
      let r := processEdge acc.1 edge
      (r.1, acc.2 ++ r.2))
    (ds, [])

/-! ### Deferred queues and their drain order -/

/-- An entry of a deferred queue: the sequence number assigned at dispatch
time (the queue's length when pushed) and the buffered event.  The thread
reference and refGuid carried by the source are functions of the same
data and are omitted here. -/
structure QueueEntry where
  sequenceNumber : Nat
  event : RawEvent
deriving DecidableEq, Repr

/-- Push one entry onto a deferred queue: sequenceNumber is the queue's
length at push time, as in processAsyncEvent, processFlowEvent and
processObjectEvent. -/
def pushEntry (q : List QueueEntry) (e : RawEvent) : List QueueEntry :=
  q ++ [⟨q.length, e⟩]

/-- One deferred queue built by the dispatcher loop of importEvents:
events satisfying the route predicate are buffered in input order. -/
def buildQueue (route : RawEvent → Bool) (events : List RawEvent) :
    List QueueEntry :=
  events.foldl (fun q e => if route e then pushEntry q e else q) []

/-- The dispatch condition for the async queue (ph b, e, n, S, F, T, p). -/
def asyncRoute (e : RawEvent) : Bool :=
  e.ph == 'b' || e.ph == 'e' || e.ph == 'n' || e.ph == 'S' ||
    e.ph == 'F' || e.ph == 'T' || e.ph == 'p'

/-- The dispatch condition for the flow queue: an X event whose complete
slice was produced (not an overhead drop) and which has a bind_id, or a
v1 flow phase (s, t, f). -/
def flowRoute (e : RawEvent) : Bool :=
  if e.ph == 'X' then
    (processCompleteEvent e).isSome && e.bind_id.isSome
  else
    e.ph == 's' || e.ph == 't' || e.ph == 'f'

/-- The dispatch condition for the object queue (ph N, D, O). -/
def objectRoute (e : RawEvent) : Bool :=
  e.ph == 'N' || e.ph == 'D' || e.ph == 'O'

/-- The sort order applied to each deferred queue before draining: by
event timestamp, ties broken by sequence number (the JS comparator
returns x.event.ts - y.event.ts, then x.sequenceNumber -
y.sequenceNumber). -/
def entryLE (x y : QueueEntry) : Prop :=
  x.event.ts < y.event.ts ∨
    (x.event.ts = y.event.ts ∧ x.sequenceNumber ≤ y.sequenceNumber)

instance entryLE.instDecidable (x y : QueueEntry) : Decidable (entryLE x y) := by
  unfold entryLE
  exact inferInstance

/-- The strict part of the drain order. -/
def entryLT (x y : QueueEntry) : Prop :=
  x.event.ts < y.event.ts ∨
    (x.event.ts = y.event.ts ∧ x.sequenceNumber < y.sequenceNumber)

instance entryLT.instIsAntisymm : IsAntisymm QueueEntry entryLT := by
  constructor
  intro a b h1 h2
  exfalso
  rcases h1 with h | ⟨hts, hseq⟩ <;> rcases h2 with h' | ⟨hts', hseq'⟩
  · exact absurd (h.trans h') (lt_irrefl _)
  · rw [hts'] at h
    exact absurd h (lt_irrefl _)
  · rw [hts] at h'
    exact absurd h' (lt_irrefl _)
  · exact absurd (hseq.trans hseq') (lt_irrefl _)

/-! ### Legacy async slices (S/T/p/F): createLegacyAsyncSlices_ -/

/-- An entry of the async deferred queue: sequence number, the thread
resolved at dispatch time, and the buffered event. -/
structure AsyncEntry where
  sequenceNumber : Nat
  thread : ThreadRef
  event : RawEvent
deriving DecidableEq, Repr

/-- The (ts, sequenceNumber) comparator of createAsyncSlices_ and
createLegacyAsyncSlices_, as a Boolean ordering. -/
def asyncEntryLEb (x y : AsyncEntry) : Bool :=
  decide (x.event.ts < y.event.ts) ||
    (x.event.ts == y.event.ts &&
      decide (x.sequenceNumber ≤ y.sequenceNumber))

/-- Stable insertion into a sorted list. -/
def insertSorted {α : Type} (le : α → α → Bool) (x : α) :
    List α → List α
  | [] => [x]
  | y :: ys => if le x y then x :: y :: ys else y :: insertSorted le x ys

/-- JavaScript Array.sort with a comparator, modelled as a stable
insertion sort; the importer's comparators are total orders on the queue
entries (sequence numbers are distinct), so any correct sort yields this
result. -/
def sortBy {α : Type} (le : α → α → Bool) (l : List α) : List α :=
  l.foldr (insertSorted le) []

/-- Polymorphic association-list lookup with string keys. -/
def alistLookup {β : Type} (m : List (String × β)) (k : String) :
    Option β :=
  List.lookup k m

/-- JS property assignment on an object modelled as an association list:
an existing key keeps its position, a new key is appended. -/
def alistSet {β : Type} (m : List (String × β)) (k : String) (v : β) :
    List (String × β) :=
  if (List.lookup k m).isSome then
    m.map (fun kv => cond (kv.1 == k) (k, v) kv)
  else m ++ [(k, v)]

/-- JS delete of a property. -/
def alistRemove {β : Type} (m : List (String × β)) (k : String) :
    List (String × β) :=
  m.filter (fun kv => kv.1 != k)

/-- tr.b.concatenateObjects: the properties of the first object, then the
second (later writes win). -/
def concatObjects (a b : Args) : Args :=
  b.foldl (fun acc kv => Args.set acc kv.1 kv.2) a

/-- An assembled async slice (color id omitted: external color scheme). -/
structure AsyncSliceCore where
  cat : Option String
  title : String
  start : Ms
  duration : Ms
  args : Args
  startThread : ThreadRef
  endThread : ThreadRef
  sliceId : String
  isTopLevel : Bool
  error : Option String := none
  threadStart : Option Ms := none
  threadDuration : Option Ms := none
deriving DecidableEq, Repr

/-- A legacy async slice together with its step sub-slices. -/
structure LegacyAsyncSlice where
  core : AsyncSliceCore
  subSlices : List AsyncSliceCore
deriving DecidableEq, Repr

/-- The state threaded through createLegacyAsyncSlices_:
asyncEventStatesByNameThenID, the slices pushed onto their start thread's
AsyncSliceGroup, and the warnings emitted so far. -/
structure LegacyState where
  byName : List (String × List (String × List AsyncEntry))
  pushes : List (ThreadRef × LegacyAsyncSlice)
  warnings : List Warning
deriving DecidableEq, Repr

/-- One step sub-slice, built for index j of the matched event list.
startIndex is j for 'T' step chains and j-1 for 'p' step chains
(the source's startIndex = j + (stepType === 'T' ? 0 : -1)).
Reading args.step of an event without args throws in the source. -/
def buildLegacySubSlice (events : List AsyncEntry) (stepType : Char)
    (sliceId : String) (j : Nat) (ej : AsyncEntry) :
    Except JsError (Option AsyncSliceCore) :=
  let startIndex := if stepType = 'T' then j else j - 1
  let endIndex := startIndex + 1
  match events.get? startIndex, events.get? endIndex with
  | some es, some ee =>
      if ¬ ej.event.argsStripped ∧
          (ej.event.ph = 'T' ∨ ej.event.ph = 'p') ∧
          ej.event.args = none then
        .error .typeError  -- events[j].event.args.step on undefined args
      else
        let subName0 := argValToString (ej.event.name.map ArgVal.str)
        let subName :=
          if ¬ ej.event.argsStripped ∧
              (ej.event.ph = 'T' ∨ ej.event.ph = 'p') then
            subName0 ++ ":" ++
              argValToString (Args.lookup (ej.event.args.getD []) "step")
          else subName0
        .ok (some
          { cat := ((events.get? 0).map (fun x => x.event.cat)).getD none
            title := subName
            start := timestampFromUs es.event.ts
            duration := timestampFromUs (ee.event.ts - es.event.ts)
            args := deepCopyIfNeeded ej.event.args
            startThread := es.thread
            endThread := ee.thread
            sliceId := sliceId
            isTopLevel := false })
  | _, _ => .ok none  -- out-of-range index: unreachable for queue input

/-- The step loop of the F branch (j = 1 .. events.length - 2): collect
sub-slices, stopping with isValid = false on a step-type mismatch.  The
S-after-start and F-before-finish warning branches dereference
event.event on a raw event and would throw in the source; they are
unreachable because S opens and F deletes the per-id entry. -/
def legacySubLoop (events : List AsyncEntry) (stepType : Char)
    (sliceId : String) :
    List Nat → Except JsError (List AsyncSliceCore × Bool × List Warning)
  | [] => .ok ([], true, [])
  | j :: rest =>
      match events.get? j with
      | none => .ok ([], true, [])  -- unreachable
      | some ej =>
          if ej.event.ph = 'T' ∨ ej.event.ph = 'p' then
            if stepType ≠ ej.event.ph then
              .ok ([], false,
                [⟨"async_slice_parse_error",
                  "At " ++ toString ej.event.ts ++ ", a slice named " ++
                    argValToString (ej.event.name.map ArgVal.str) ++
                    " with id=" ++
                    argValToString (ej.event.id.map ArgVal.str) ++
                    " had both begin and end steps, which is not allowed."⟩])
            else do
              let sub ← buildLegacySubSlice events stepType sliceId j ej
              let (subs, isValid, warns) ←
                legacySubLoop events stepType sliceId rest
              .ok (sub.toList ++ subs, isValid, warns)
          else if ej.event.ph = 'S' then
            .error .typeError  -- event.event.ts on a raw event (dead code)
          else if ej.event.ph = 'F' then
            .error .typeError  -- event.event.ts on a raw event (dead code)
          else do
            let sub ← buildLegacySubSlice events stepType sliceId j ej
            let (subs, isValid, warns) ←
              legacySubLoop events stepType sliceId rest
            .ok (sub.toList ++ subs, isValid, warns)

/-- Build the closed legacy slice for an F event; events is the matched
list (the S entry first, the F entry last).  The slice spans from the S
event to the F event and carries the concatenated S/F args. -/
def buildLegacySlice (events : List AsyncEntry) (fEntry : AsyncEntry)
    (name sliceId : String) :
    Except JsError (LegacyAsyncSlice × Bool × List Warning) :=
  match events with
  | [] => .error .typeError  -- events[0] undefined: unreachable
  | e0 :: _ =>
      let stepType := ((events.get? 1).map (fun x => x.event.ph)).getD 'F'
      let core : AsyncSliceCore :=
        { cat := e0.event.cat
          title := name
          start := timestampFromUs e0.event.ts
          duration := timestampFromUs (fEntry.event.ts - e0.event.ts)
          args := concatObjects (e0.event.args.getD [])
            ((((events.getLast?).map (fun x => x.event.args)).getD
              none).getD [])
          startThread := e0.thread
          endThread := fEntry.thread
          sliceId := sliceId
          isTopLevel := true }
      do
        let r ← legacySubLoop events stepType sliceId
          (List.range' 1 (events.length - 2))
        .ok ({ core := core, subSlices := r.1 }, r.2.1, r.2.2)

/-- One iteration of the createLegacyAsyncSlices_ loop over the sorted
legacy entries. -/
def legacyStep (st : LegacyState) (entry : AsyncEntry) :
    Except JsError LegacyState :=
  match entry.event.name with
  | none =>
      .ok { st with warnings := st.warnings ++
        [⟨"async_slice_parse_error",
          "Async events (ph: S, T, p, or F) require a name  parameter."⟩] }
  | some name =>
  match entry.event.id with
  | none =>
      .ok { st with warnings := st.warnings ++
        [⟨"async_slice_parse_error",
          "Async events (ph: S, T, p, or F) require an id parameter."⟩] }
  | some sliceId =>
  if entry.event.ph = 'S' then
    let inner := (alistLookup st.byName name).getD []
    match alistLookup inner sliceId with
    | some _ =>
        .ok { st with warnings := st.warnings ++
          [⟨"async_slice_parse_error",
            "At " ++ toString entry.event.ts ++
              ", a slice of the same id " ++ sliceId ++
              " was alrady open."⟩] }
    | none =>
        .ok { st with byName := alistSet st.byName name (alistSet inner sliceId [entry]) }
  else
    match alistLookup st.byName name with
    | none =>
        .ok { st with warnings := st.warnings ++
          [⟨"async_slice_parse_error",
            "At " ++ toString entry.event.ts ++ ", no slice named " ++
              name ++ " was open."⟩] }
    | some inner =>
    match alistLookup inner sliceId with
    | none =>
        .ok { st with warnings := st.warnings ++
          [⟨"async_slice_parse_error",
            "At " ++ toString entry.event.ts ++ ", no slice named " ++
              name ++ " with id=" ++ sliceId ++ " was open."⟩] }
    | some events0 =>
        let events := events0 ++ [entry]
        if entry.event.ph = 'F' then do
          let r ← buildLegacySlice events entry name sliceId
          .ok { st with
            byName := alistSet st.byName name (alistRemove inner sliceId)
            pushes := st.pushes ++
              (if r.2.1 then [(r.1.core.startThread, r.1)] else [])
            warnings := st.warnings ++ r.2.2 }
        else
          .ok { st with byName := alistSet st.byName name (alistSet inner sliceId events) }

/-- Translation of createLegacyAsyncSlices_: sort the buffered legacy
entries by (ts, sequenceNumber) and process them in order. -/
def createLegacyAsyncSlices (legacyEvents : List AsyncEntry) :
    Except JsError LegacyState :=
  (sortBy asyncEntryLEb legacyEvents).foldlM legacyStep ⟨[], [], []⟩

/-! ### Nestable async slices (b/n/e): the per-key matcher of
createAsyncSlices_ -/

/-- Lookup in a Nat-keyed association list. -/
def natLookup (m : List (Nat × Nat)) (k : Nat) : Option Nat :=
  List.lookup k m

/-- The match information produced by the first pass over one key's
entries: for each BEGIN index its matching END index (entry.end), the
indices of unmatched END entries (entry.finished = false), and each
entry's parent index (entry.parentEntry). -/
structure NAMatchInfo where
  endAssign : List (Nat × Nat)
  unmatchedE : List Nat
  parentAssign : List (Nat × Nat)
deriving DecidableEq, Repr

/-- Walk up the parent stack (top first) for the nearest BEGIN with the
given name; on success return its index and the stack popped down past
it (the source pops every entry from the match to the top, the matched
BEGIN included). -/
def stackFindName (entries : List AsyncEntry) (nm : Option String) :
    List Nat → Option (Nat × List Nat)
  | [] => none
  | j :: rest =>
      if ((entries.get? j).map (fun x => x.event.name)).getD none = nm then
        some (j, rest)
      else
        match stackFindName entries nm rest with
        | some (k, rem) => some (k, rem)
        | none => none

/-- One iteration of the first pass: match an END to its BEGIN (or mark
it unmatched), inherit the current parent, then push a BEGIN. -/
def nestableMatchStep (entries : List AsyncEntry)
    (acc : List Nat × NAMatchInfo) (i : Nat) : List Nat × NAMatchInfo :=
  match entries.get? i with
  | none => acc
  | some ei =>
      let (stack, info) := acc
      let (stack1, info1) :=
        if ei.event.ph = 'e' then
          match stackFindName entries ei.event.name stack with
          | none =>
              (stack, { info with unmatchedE := info.unmatchedE ++ [i] })
          | some (k, rem) =>
              (rem, { info with endAssign := info.endAssign ++ [(k, i)] })
        else (stack, info)
      let info2 :=
        match stack1 with
        | [] => info1
        | top :: _ =>
            { info1 with parentAssign := info1.parentAssign ++ [(i, top)] }
      let stack2 := if ei.event.ph = 'b' then i :: stack1 else stack1
      (stack2, info2)

/-- The first pass of the nestable matcher over one key's entries. -/
def nestableMatchPass (entries : List AsyncEntry) : NAMatchInfo :=
  ((List.range entries.length).foldl (nestableMatchStep entries)
    ([], ⟨[], [], []⟩)).2

/-- concatenateArguments of createAsyncSlices_: when either side lacks a
params field, plain object concatenation.  When both carry params the
source additionally merges the two params objects; flat argument values
cannot carry the merged object, so the last params write stands in for
it — this agrees with the source whenever at most one side carries
params, and no checked claim exercises the other case. -/
def concatenateArguments (args1 args2 : Args) : Args :=
  if (Args.lookup args1 "params").isNone ||
      (Args.lookup args2 "params").isNone then
    concatObjects args1 args2
  else
    concatObjects (concatObjects args1 args2)
      [("params", (Args.lookup args2 "params").getD .nullv)]

/-- The second pass of the nestable matcher, for the entry at index i:
none for a matched END (its slice was built at its BEGIN); otherwise the
built slice, its parent index, and the warnings emitted.  An unmatched
BEGIN ends at the last entry with an adjusted-end error; an unmatched END
starts at the first entry with an adjusted-start error; an 'n' entry is a
zero-duration slice. -/
def buildNestableSlice (entries : List AsyncEntry) (key : String)
    (info : NAMatchInfo) (i : Nat) :
    Option (AsyncSliceCore × Option Nat × List Warning) :=
  match entries.get? i with
  | none => none
  | some ei =>
      if ei.event.ph = 'e' ∧ ¬ (i ∈ info.unmatchedE) then none
      else
        let lastIdx := entries.length - 1
        let parent := natLookup info.parentAssign i
        let mk := fun (sIdx eIdx : Nat) (args : Args) (err : Option String)
            (warns : List Warning) =>
          match entries.get? sIdx, entries.get? eIdx with
          | some es, some ee =>
              let thread_start : Option Ms :=
                match es.event.tts with
                | some t =>
                    if t != 0 && es.event.use_async_tts then
                      some (timestampFromUs t)
                    else none
                | none => none
              let thread_duration : Option Ms :=
                match thread_start, ee.event.tts with
                | some ts0, some te =>
                    if te != 0 then some (timestampFromUs te - ts0) else none
                | _, _ => none
              some
                ({ cat := ei.event.cat
                   title := argValToString (ei.event.name.map ArgVal.str)
                   start := timestampFromUs es.event.ts
                   duration := timestampFromUs (ee.event.ts - es.event.ts)
                   args := args
                   startThread := es.thread
                   endThread := ee.thread
                   sliceId := key
                   isTopLevel := parent.isNone
                   error := err
                   threadStart := thread_start
                   threadDuration := thread_duration }, parent, warns)
          | _, _ => none
        if ei.event.ph = 'n' then
          mk i i (ei.event.args.getD []) none []
        else if ei.event.ph = 'b' then
          match natLookup info.endAssign i with
          | none =>
              mk i lastIdx (ei.event.args.getD [])
                (some "Slice has no matching END. End time has been adjusted.")
                [⟨"async_slice_parse_error",
                  "Nestable async BEGIN event at " ++
                    toString ei.event.ts ++ " with name=" ++
                    argValToString (ei.event.name.map ArgVal.str) ++
                    " and id=" ++
                    argValToString (ei.event.id.map ArgVal.str) ++
                    " was unmatched."⟩]
          | some j =>
              mk i j
                (concatenateArguments (ei.event.args.getD [])
                  ((((entries.get? j).map (fun x => x.event.args)).getD
                    none).getD []))
                none []
        else
          mk 0 i (ei.event.args.getD [])
            (some "Slice has no matching BEGIN. Start time has been adjusted.")
            [⟨"async_slice_parse_error",
              "Nestable async END event at " ++
                toString ei.event.ts ++ " with name=" ++
                argValToString (ei.event.name.map ArgVal.str) ++
                " and id=" ++
                argValToString (ei.event.id.map ArgVal.str) ++
                " was unmatched."⟩]

/-- The whole second pass over one key's entries: the built slices with
their parent indices, and the warnings, in entry order. -/
def processNestableGroup (key : String) (entries : List AsyncEntry) :
    List (AsyncSliceCore × Option Nat) × List Warning :=
  let info := nestableMatchPass entries
  (List.range entries.length).foldl
    (fun acc i =>
      match buildNestableSlice entries key info i with
      | none => acc
      | some (slice, parent, warns) =>
          (acc.1 ++ [(slice, parent)], acc.2 ++ warns))
    ([], [])

/-- A nestable async group exercising both unmatched cases: an unmatched
BEGIN named A, a matched pair named C, and an unmatched END named B. -/
def nestableExampleEntries : List AsyncEntry :=
  [⟨0, ⟨1, 1⟩, { ph := 'b', cat := some "cc", name := some "A",
                 id := some "7", ts := 0 }⟩,
   ⟨1, ⟨1, 1⟩, { ph := 'b', cat := some "cc", name := some "C",
                 id := some "7", ts := 1 }⟩,
   ⟨2, ⟨1, 1⟩, { ph := 'e', cat := some "cc", name := some "C",
                 id := some "7", ts := 3 }⟩,
   ⟨3, ⟨1, 1⟩, { ph := 'e', cat := some "cc", name := some "B",
                 id := some "7", ts := 5 }⟩]

/-- The S entry of spec scenario 4: S at ts=0 with id 7 and name q. -/
def scenario4S : AsyncEntry :=
  ⟨0, ⟨1, 1⟩, { ph := 'S', name := some "q", id := some "7", ts := 0,
                pid := 1, tid := 1 }⟩

/-- The T entry of spec scenario 4: T at ts=5 with id 7 and args.step=a. -/
def scenario4T : AsyncEntry :=
  ⟨1, ⟨1, 1⟩, { ph := 'T', name := some "q", id := some "7", ts := 5,
                args := some [("step", .str "a")], pid := 1, tid := 1 }⟩

/-- The F entry of spec scenario 4: F at ts=10 with id 7. -/
def scenario4F : AsyncEntry :=
  ⟨2, ⟨1, 1⟩, { ph := 'F', name := some "q", id := some "7", ts := 10,
                pid := 1, tid := 1 }⟩

/-! ### v1 flow events (s/t/f): createFlowSlices_ -/

/-- An opaque reference to a synchronous slice, as returned by the
slice-group lookups. -/
structure SliceRef where
  refId : Nat
deriving DecidableEq, Repr

/-- A flow event under construction (color id omitted). -/
structure FlowEvt where
  cat : Option String
  flowId : String
  title : Option String
  start : Ms
  args : Args
  startSlice : SliceRef
  endSlice : Option SliceRef := none
  duration : Option Ms := none
deriving DecidableEq, Repr

/-- An entry of the flow deferred queue: the refGuid captured at dispatch
time, the sequence number, the thread, and the event. -/
structure FlowEntry where
  refGuid : Nat
  sequenceNumber : Nat
  thread : ThreadRef
  event : RawEvent
deriving DecidableEq, Repr

/-- The slice-group lookups used by flow processing: findSliceAtTs (the
slice containing ts) and findNextSliceAfter (the first slice after ts,
scoped by refGuid).  slice_group.js is outside the snapshot, so both are
oracle parameters of the embedding. -/
structure SliceLookups where
  findAt : ThreadRef → Ms → Option SliceRef
  findNext : ThreadRef → Ms → Nat → Option SliceRef

/-- The state of the v1 flow loop: flowIdToEvent (setting an entry to
undefined removes it), the flow events pushed into the model, and the
out/in flow pushes onto slices. -/
structure FlowState where
  flowIdToEvent : List (String × FlowEvt) := []
  modelFlowEvents : List FlowEvt := []
  outFlowPushes : List (SliceRef × FlowEvt) := []
  inFlowPushes : List (SliceRef × FlowEvt) := []
  warnings : List Warning := []
deriving DecidableEq, Repr

/-- createFlowEvent for a v1 event: locate the slice containing ts on the
event's thread; undefined when there is none.  Returns the flow event and
the slice receiving the outFlowEvents push. -/
def createFlowEventV1 (lks : SliceLookups) (thread : ThreadRef)
    (e : RawEvent) : Option (FlowEvt × SliceRef) :=
  let ts := timestampFromUs e.ts
  match lks.findAt thread ts with
  | none => none
  | some startSlice =>
      some
        ({ cat := e.cat
           flowId := e.id.getD ""
           title := e.name
           start := ts
           args := e.args.getD []  -- deepCopyAlways_
           startSlice := startSlice }, startSlice)

/-- finishFlowEventWith for a v1 event: bind the end to the containing
slice (bindToParent) or to the next slice after ts; none when no slice is
found.  On success the flow event gets its end slice, duration and merged
args; the merge warnings are returned. -/
def finishFlowEventWithV1 (lks : SliceLookups) (fe : FlowEvt)
    (thread : ThreadRef) (e : RawEvent) (refGuid : Nat)
    (bindToParent : Bool) :
    Option (FlowEvt × SliceRef × List Warning) :=
  let ts := timestampFromUs e.ts
  let endSlice :=
    if bindToParent then lks.findAt thread ts
    else lks.findNext thread ts refGuid
  match endSlice with
  | none => none
  | some es =>
      let merged := mergeArgsInto fe.args (e.args.getD [])
        (argValToString (fe.title.map ArgVal.str))
      some ({ fe with
              endSlice := some es
              duration := some (ts - fe.start)
              args := merged.1 }, es, merged.2)

/-- The tail of the t/f branch after bindToParent is settled: finish the
flow event (pushing it into the model and onto the end slice, or warning
when no slice is found), close the flow id, and for a 't' step open a
fresh flow from the same event. -/
def finishV1Flow (lks : SliceLookups) (st : FlowState) (fid : String)
    (fe : FlowEvt) (entry : FlowEntry) (bindToParent : Bool) : FlowState :=
  match finishFlowEventWithV1 lks fe entry.thread entry.event entry.refGuid
      bindToParent with
  | some (fe2, es, mergeWarns) =>
      let st1 : FlowState :=
        { st with
          modelFlowEvents := st.modelFlowEvents ++ [fe2]
          inFlowPushes := st.inFlowPushes ++ [(es, fe2)]
          warnings := st.warnings ++ mergeWarns
          flowIdToEvent := alistRemove st.flowIdToEvent fid }
      if entry.event.ph = 't' then
        match createFlowEventV1 lks entry.thread entry.event with
        | some (nfe, ssl) =>
            { st1 with
              flowIdToEvent := alistSet st1.flowIdToEvent fid nfe
              outFlowPushes := st1.outFlowPushes ++ [(ssl, nfe)] }
        | none => st1
      else st1
  | none =>
      { st with
        warnings := st.warnings ++
          [⟨"flow_slice_end_error",
            "event id " ++ fid ++ " does not end " ++
              "at an actual slice, so cannot be created."⟩]
        flowIdToEvent := alistRemove st.flowIdToEvent fid }

/-- Translation of the v1 arm of the createFlowSlices_ loop (events
without a bind_id): validation, then the s / t / f handling.  Reading
event.cat.indexOf in the f branch throws when cat is undefined. -/
def processV1FlowEvent (lks : SliceLookups) (st : FlowState)
    (entry : FlowEntry) : Except JsError FlowState :=
  let e := entry.event
  if e.name = none then
    .ok { st with warnings := st.warnings ++
      [⟨"flow_slice_parse_error",
        "Flow events (ph: s, t or f) require a name parameter."⟩] }
  else if e.id = none then
    .ok { st with warnings := st.warnings ++
      [⟨"flow_slice_parse_error",
        "Flow events (ph: s, t or f) require an id parameter."⟩] }
  else
    let fid := e.id.getD ""
    if e.ph = 's' then
      if (alistLookup st.flowIdToEvent fid).isSome then
        .ok { st with warnings := st.warnings ++
          [⟨"flow_slice_start_error",
            "event id " ++ fid ++ " already seen when " ++
              "encountering start of flow event."⟩] }
      else
        match createFlowEventV1 lks entry.thread e with
        | none =>
            .ok { st with warnings := st.warnings ++
              [⟨"flow_slice_start_error",
                "event id " ++ fid ++ " does not start " ++
                  "at an actual slice, so cannot be created."⟩] }
        | some (fe, ssl) =>
            .ok { st with
              flowIdToEvent := alistSet st.flowIdToEvent fid fe
              outFlowPushes := st.outFlowPushes ++ [(ssl, fe)] }
    else if e.ph = 't' ∨ e.ph = 'f' then
      match alistLookup st.flowIdToEvent fid with
      | none =>
          .ok { st with warnings := st.warnings ++
            [⟨"flow_slice_ordering_error",
              "Found flow phase " ++ String.mk [e.ph] ++ " for id: " ++
                fid ++ " but no flow start found."⟩] }
      | some fe =>
          if e.ph = 'f' then
            match e.bp with
            | none =>
                match e.cat with
                | none => .error .typeError  -- event.cat.indexOf(...)
                | some c =>
                    let btp :=
                      strContains c "input" || strContains c "ipc.flow"
                    .ok (finishV1Flow lks st fid fe entry btp)
            | some bpv =>
                if bpv ≠ "e" then
                  .ok { st with warnings := st.warnings ++
                    [⟨"flow_slice_bind_point_error",
                      "Flow event with invalid binding point (event.bp)."⟩] }
                else .ok (finishV1Flow lks st fid fe entry true)
          else
            .ok (finishV1Flow lks st fid fe entry true)
    else
      .ok st

/-- Concrete slice lookups for checking the flow bindings: the containing
slice is 100, the next slice is 200. -/
def exampleLookups : SliceLookups :=
  ⟨fun _ _ => some ⟨100⟩, fun _ _ _ => some ⟨200⟩⟩

/-- A concrete open flow event with id 9. -/
def exampleOpenFlow : FlowEvt :=
  { cat := none, flowId := "9", title := some "fl", start := ⟨0⟩,
    args := [], startSlice := ⟨1⟩ }

/-- A flow-loop state with the single open flow id 9. -/
def exampleFlowState : FlowState :=
  { flowIdToEvent := [("9", exampleOpenFlow)] }

/-- A v1 flow end with bp='e'. -/
def exampleEndBpE : FlowEntry :=
  ⟨0, 0, ⟨1, 1⟩,
   { ph := 'f', name := some "fl", id := some "9", ts := 7,
     bp := some "e" }⟩

/-- A v1 flow end with bp undefined and a plain category. -/
def exampleEndDefault : FlowEntry :=
  ⟨0, 0, ⟨1, 1⟩,
   { ph := 'f', cat := some "cc", name := some "fl", id := some "9",
     ts := 7 }⟩

/-- A v1 flow end with the invalid binding point bp='x'. -/
def exampleEndBadBp : FlowEntry :=
  ⟨0, 0, ⟨1, 1⟩,
   { ph := 'f', name := some "fl", id := some "9", ts := 7,
     bp := some "x" }⟩

end BigRig

namespace BigRig

/-- C5: an X event whose category contains trace_event_overhead produces
no slice and no warning; otherwise a closed slice with the event's ts and
dur is pushed onto the thread's slice group, and the event's flowPhase is
STEP when flow_in and flow_out are both present, PRODUCER for flow_out
alone, CONSUMER for flow_in alone. -/
theorem processCompleteEvent_claim (e : RawEvent) (_hph : e.ph = 'X') :
    (catContainsOverhead e = true → processCompleteEvent e = none) ∧
    (catContainsOverhead e = false →
      ∃ r, processCompleteEvent e = some r ∧
        r.pushed.start = timestampFromUs e.ts ∧
        r.pushed.duration = maybeTimestampFromUs e.dur ∧
        r.flowPhase =
          (if e.flow_in && e.flow_out then some .step
           else if e.flow_out then some .producer
           else if e.flow_in then some .consumer
           else none)) := by
  constructor
  · intro h
    simp [processCompleteEvent, h]
  · intro h
    unfold processCompleteEvent
    rw [h]
    refine ⟨_, rfl, rfl, rfl, ?_⟩
    cases hin : e.flow_in <;> cases hout : e.flow_out <;> simp [hin, hout]

/-- C5 witness: an overhead-tagged X event yields no slice, and a plain X
event with flow_out yields a producer slice carrying its ts and dur. -/
theorem processCompleteEvent_claim_witness :
    (processCompleteEvent
      { ph := 'X', cat := some "toplevel,trace_event_overhead", ts := 3 } =
        none) ∧
    (∃ r, processCompleteEvent
        { ph := 'X', cat := some "cc", ts := 4, dur := some 6,
          flow_out := true } = some r ∧
      r.pushed.start = timestampFromUs 4 ∧
      r.pushed.duration = maybeTimestampFromUs (some 6) ∧
      r.flowPhase = some .producer) := by
  constructor
  · exact (processCompleteEvent_claim _ rfl).1 (by decide)
  · have h := (processCompleteEvent_claim
      { ph := 'X', cat := some "cc", ts := 4, dur := some 6,
        flow_out := true } rfl).2 (by decide)
    simpa using h

/-- C9: the claim quantifies over every I-phase event, but an I event with
global scope ('g') bypasses the backward-timestamp gate entirely: with the
group's greatest observed timestamp at 1 ms and the event at 0.5 ms, no
warning is emitted and a global instant event is still created. -/
theorem backward_ts_claim_counterexample :
    (({ ph := 'I', name := some "x", s := some 'g', ts := 500 } :
        RawEvent).ph = 'I') ∧
    timestampFromUs 500 < (⟨1000⟩ : Ms) ∧
    processInstantEvent { maxTs := some ⟨1000⟩ }
        { ph := 'I', name := some "x", s := some 'g', ts := 500 } =
      .globalInstant (some "x") (timestampFromUs 500) [] := by
  refine ⟨rfl, by decide, rfl⟩

/-- C9 (amended): for every B or E event, and every I, i or R event whose
scope is 't' or absent and whose name is not a V8 JIT marker, a timestamp
smaller than the group's greatest previously observed timestamp makes the
importer emit the warning 'Timestamps are moving backward.' and drop the
event, leaving the slice group unchanged. -/
theorem backward_ts_amended (g : SliceGroupM) (e : RawEvent) (m : Ms)
    (hroute : e.ph = 'B' ∨ e.ph = 'E' ∨
      ((e.ph = 'I' ∨ e.ph = 'i' ∨ e.ph = 'R') ∧
        (e.s = some 't' ∨ e.s = none) ∧
        e.name ≠ some "JitCodeAdded" ∧ e.name ≠ some "JitCodeMoved"))
    (hm : g.maxTs = some m) (hlt : timestampFromUs e.ts < m) :
    processDurationEvent g e =
      .ok (g, [⟨"duration_parse_error",
        "Timestamps are moving backward."⟩]) ∧
    ((e.ph = 'I' ∨ e.ph = 'i' ∨ e.ph = 'R') →
      processInstantEvent g e =
        .duration (.ok (g, [⟨"duration_parse_error",
          "Timestamps are moving backward."⟩]))) := by
  have hinvalid :
      g.isTimestampValidForBeginOrEnd (timestampFromUs e.ts) = false := by
    simp [SliceGroupM.isTimestampValidForBeginOrEnd, hm,
      Ms.not_le.mpr hlt]
  have hgate : processDurationEvent g e =
      .ok (g, [⟨"duration_parse_error",
        "Timestamps are moving backward."⟩]) := by
    simp [processDurationEvent, hinvalid]
  refine ⟨hgate, fun hph => ?_⟩
  have hcond : (e.ph = 'I' ∨ e.ph = 'i' ∨ e.ph = 'R') ∧
      (e.s = some 't' ∨ e.s = none) ∧
      e.name ≠ some "JitCodeAdded" ∧ e.name ≠ some "JitCodeMoved" := by
    rcases hroute with hB | hE | hI
    · rcases hph with h | h | h <;> rw [hB] at h <;> exact absurd h (by decide)
    · rcases hph with h | h | h <;> rw [hE] at h <;> exact absurd h (by decide)
    · exact hI
  have h1 : ¬ (e.name = some "JitCodeAdded" ∨ e.name = some "JitCodeMoved") := by
    rintro (h | h)
    · exact hcond.2.2.1 h
    · exact hcond.2.2.2 h
  unfold processInstantEvent
  rw [if_neg h1, if_pos hcond.2.1, hgate]

/-- C9 witness for the amended statement: a concrete E event at 0.5 ms
against a group whose greatest observed timestamp is 1 ms. -/
theorem backward_ts_amended_witness :
    processDurationEvent { maxTs := some ⟨1000⟩ } { ph := 'E', ts := 500 } =
      .ok ({ maxTs := some ⟨1000⟩ }, [⟨"duration_parse_error",
        "Timestamps are moving backward."⟩]) := by
  exact (backward_ts_amended { maxTs := some ⟨1000⟩ }
    { ph := 'E', ts := 500 } ⟨1000⟩
    (Or.inr (Or.inl rfl)) rfl (by decide)).1

/-- C8: the claim quantifies over every subsequent C event, but a C event
for a counter whose series already exist and whose own args bag is
undefined makes processCounterEvent read event.args[series.name] and
throw a TypeError instead of appending zero-valued samples. -/
theorem counter_claim_counterexample :
    processCounterEvent
        [((1, some "cc", "ctr"), ⟨some "cc", "ctr", [⟨"a", []⟩]⟩)]
        { ph := 'C', cat := some "cc", name := some "ctr", pid := 1,
          ts := 5 } =
      .error .typeError := by
  rfl

/-- C8 (amended): the counter is named event.name, suffixed with the
bracketed id when present; a first event whose args bag has no keys warns
with counter_parse_error and removes the counter from its process; a
subsequent C event carrying an args object appends exactly one sample per
existing series at the event's timestamp, with value 0 for every series
name whose args entry is missing (or falsy); a subsequent C event without
an args object throws a TypeError. -/
theorem processCounterEvent_amended (st : CounterStore) (e : RawEvent)
    (_hph : e.ph = 'C') :
    (∀ n i, e.name = some n → e.id = some i →
      counterEventName e = n ++ "[" ++ i ++ "]") ∧
    (∀ n, e.name = some n → e.id = none → counterEventName e = n) ∧
    ((match storeLookup st (e.pid, e.cat, counterEventName e) with
      | none => True
      | some c => c.series = []) →
      (e.args = none ∨ e.args = some []) →
      processCounterEvent st e =
        .ok (storeRemove st (e.pid, e.cat, counterEventName e),
          [⟨"counter_parse_error",
            "Expected counter " ++ argValToString (e.name.map ArgVal.str) ++
              " to have at least one argument to use as a value."⟩])) ∧
    (∀ c a, storeLookup st (e.pid, e.cat, counterEventName e) = some c →
      c.series ≠ [] → e.args = some a →
      processCounterEvent st e =
        .ok (storeSet st (e.pid, e.cat, counterEventName e)
          { c with series := c.series.map (fun sr =>
              { sr with samples := sr.samples ++
                [(timestampFromUs e.ts, counterSampleVal a sr.name)] }) },
          [])) ∧
    (∀ c, storeLookup st (e.pid, e.cat, counterEventName e) = some c →
      c.series ≠ [] → e.args = none →
      processCounterEvent st e = .error .typeError) ∧
    (∀ a name, Args.lookup a name = none →
      counterSampleVal a name = .num 0) := by
  refine ⟨?_, ?_, ?_, ?_, ?_, ?_⟩
  · intro n i hn hi
    simp [counterEventName, hn, hi, argValToString]
  · intro n hn hi
    simp [counterEventName, hn, hi, argValToString]
  · intro hzero hargs
    rcases hlook : storeLookup st (e.pid, e.cat, counterEventName e) with
      _ | c <;> rw [hlook] at hzero <;>
      rcases hargs with h | h <;>
      simp [processCounterEvent, hlook, h, hzero]
  · intro c a hlook hne hargs
    have hlen : ¬ c.series.length = 0 := by
      simpa [List.length_eq_zero] using hne
    simp [processCounterEvent, hlook, hargs, hlen]
  · intro c hlook hne hargs
    have hlen : ¬ c.series.length = 0 := by
      simpa [List.length_eq_zero] using hne
    simp [processCounterEvent, hlook, hargs, hlen]
  · intro a name h
    unfold counterSampleVal
    rw [h]

/-- C8 witness for the amended statement: a first C event with an empty
args bag drops its counter with a warning, and a subsequent C event with
args lacking the series name appends a zero sample. -/
theorem processCounterEvent_amended_witness :
    processCounterEvent []
        { ph := 'C', name := some "n", ts := 2, args := some [] } =
      .ok ([], [⟨"counter_parse_error",
        "Expected counter n to have at least one argument to use as a value."⟩]) ∧
    processCounterEvent [((0, none, "n"), ⟨none, "n", [⟨"a", []⟩]⟩)]
        { ph := 'C', name := some "n", ts := 2,
          args := some [("b", .num 2)] } =
      .ok ([((0, none, "n"),
        ⟨none, "n", [⟨"a", [(timestampFromUs 2, .num 0)]⟩]⟩)], []) := by
  constructor
  · have h := (processCounterEvent_amended []
      { ph := 'C', name := some "n", ts := 2, args := some [] } rfl).2.2.1
      trivial (Or.inr rfl)
    exact h.trans rfl
  · have h := (processCounterEvent_amended
      [((0, none, "n"), ⟨none, "n", [⟨"a", []⟩]⟩)]
      { ph := 'C', name := some "n", ts := 2, args := some [("b", .num 2)] }
      rfl).2.2.2.1 ⟨none, "n", [⟨"a", []⟩]⟩ [("b", .num 2)] rfl
      (by decide) rfl
    exact h.trans rfl

/-- C10: getAllThreads throws a TypeError whenever the kernel has at
least one thread (the first loop reads .threads of the hoisted, not yet
assigned, local variable), and with no kernel threads it returns the
threads of all processes. -/
theorem getAllThreads_claim (m : ModelM) :
    (m.kernel.threads ≠ [] → getAllThreads m = .error .typeError) ∧
    (m.kernel.threads = [] →
      getAllThreads m =
        .ok ((m.processes.map (fun p => p.2.threads.map Prod.snd)).flatten)) := by
  constructor
  · intro h
    rcases hk : m.kernel.threads with _ | ⟨a, rest⟩
    · exact absurd hk h
    · simp [getAllThreads, getAllThreadsKernelLoop, hk]
  · intro h
    simp [getAllThreads, getAllThreadsKernelLoop, h]

/-- C10 witness: a model with one kernel thread throws; a model with no
kernel threads and one two-thread process returns both threads. -/
theorem getAllThreads_claim_witness :
    getAllThreads
        { kernel := ⟨[(4, ⟨0, 4⟩)]⟩,
          processes := [(1, ⟨1, [(2, ⟨1, 2⟩)]⟩)] } =
      .error .typeError ∧
    getAllThreads
        { kernel := ⟨[]⟩,
          processes := [(1, ⟨1, [(2, ⟨1, 2⟩), (3, ⟨1, 3⟩)]⟩)] } =
      .ok [⟨1, 2⟩, ⟨1, 3⟩] := by
  constructor
  · exact (getAllThreads_claim
      { kernel := ⟨[(4, ⟨0, 4⟩)]⟩,
        processes := [(1, ⟨1, [(2, ⟨1, 2⟩)]⟩)] }).1 (by simp)
  · exact ((getAllThreads_claim
      { kernel := ⟨[]⟩,
        processes := [(1, ⟨1, [(2, ⟨1, 2⟩), (3, ⟨1, 3⟩)]⟩)] }).2 rfl).trans
      rfl

/-- After updating the binding of a GUID that is present in the index,
looking that GUID up yields the new dump. -/
theorem guidLookup_guidUpdate_self (ds : DumpsByGuid) (g : String)
    (d : MADump) (h : (guidLookup ds g).isSome) :
    guidLookup (guidUpdate ds g d) g = some d := by
  induction ds with
  | nil => simp [guidLookup, List.lookup] at h
  | cons kv rest ih =>
      rcases hk : (kv.1 == g) with _ | _
      · have hgk : (g == kv.1) = false := by
          rw [beq_eq_false_iff_ne] at hk ⊢
          exact fun hgk => hk hgk.symm
        have h' : (guidLookup rest g).isSome := by
          simpa [guidLookup, List.lookup, hgk] using h
        simpa [guidLookup, guidUpdate, List.lookup, hk, hgk] using ih h'
      · simp [guidLookup, guidUpdate, List.lookup, hk]

/-- Updating one GUID's binding leaves every other GUID's lookup
unchanged. -/
theorem guidLookup_guidUpdate_ne (ds : DumpsByGuid) (g g' : String)
    (d : MADump) (h : g' ≠ g) :
    guidLookup (guidUpdate ds g d) g' = guidLookup ds g' := by
  induction ds with
  | nil => rfl
  | cons kv rest ih =>
      rcases hk : (kv.1 == g) with _ | _
      · rcases hgk : (g' == kv.1) with _ | _
        · simpa [guidLookup, guidUpdate, List.lookup, hk, hgk] using ih
        · simp [guidLookup, guidUpdate, List.lookup, hk, hgk]
      · have hne : (g' == g) = false := by
          rwa [beq_eq_false_iff_ne]
        rw [beq_iff_eq] at hk
        simpa [guidLookup, guidUpdate, List.lookup, hk, hne] using ih

/-- C7: an edge whose source or target GUID resolves to no dump warns and
adds no link; an ownership edge for a source that already owns a dump
warns and leaves the index (hence the first link) unchanged; a first
ownership edge installs the owns/ownedBy link pair; a retention edge
always appends to retains/retainedBy without warning, so any number of
retention edges accumulate. -/
theorem memory_edge_claim (ds : DumpsByGuid) (edge : RawEdge) :
    (edge.source.bind (guidLookup ds) = none →
      (processEdge ds edge).1 = ds ∧
      (processEdge ds edge).2.map Warning.wtype =
        ["memory_dump_parse_error"]) ∧
    (∀ sd, edge.source.bind (guidLookup ds) = some sd →
      edge.target.bind (guidLookup ds) = none →
      (processEdge ds edge).1 = ds ∧
      (processEdge ds edge).2.map Warning.wtype =
        ["memory_dump_parse_error"]) ∧
    (∀ sd td, edge.source.bind (guidLookup ds) = some sd →
      edge.target.bind (guidLookup ds) = some td →
      edge.edgeType = some "ownership" → sd.owns ≠ none →
      (processEdge ds edge).1 = ds ∧
      (processEdge ds edge).2.map Warning.wtype =
        ["memory_dump_parse_error"]) ∧
    (∀ sguid tguid sd td, edge.source = some sguid →
      edge.target = some tguid →
      guidLookup ds sguid = some sd → guidLookup ds tguid = some td →
      sguid ≠ tguid → edge.edgeType = some "ownership" → sd.owns = none →
      (processEdge ds edge).2 = [] ∧
      guidLookup (processEdge ds edge).1 sguid =
        some { sd with owns := some ⟨sguid, tguid, edge.importance⟩ } ∧
      guidLookup (processEdge ds edge).1 tguid =
        some { td with
          ownedBy := td.ownedBy ++ [⟨sguid, tguid, edge.importance⟩] }) ∧
    (∀ sguid tguid sd td, edge.source = some sguid →
      edge.target = some tguid →
      guidLookup ds sguid = some sd → guidLookup ds tguid = some td →
      sguid ≠ tguid → edge.edgeType = some "retention" →
      (processEdge ds edge).2 = [] ∧
      guidLookup (processEdge ds edge).1 sguid =
        some { sd with
          retains := sd.retains ++ [⟨sguid, tguid, edge.importance⟩] } ∧
      guidLookup (processEdge ds edge).1 tguid =
        some { td with
          retainedBy := td.retainedBy ++ [⟨sguid, tguid, edge.importance⟩] }) := by
  refine ⟨?_, ?_, ?_, ?_, ?_⟩
  · intro h
    simp only [processEdge, h]
    exact ⟨trivial, rfl⟩
  · intro sd hs ht
    simp only [processEdge, hs, ht]
    exact ⟨trivial, rfl⟩
  · intro sd td hs ht htype howns
    rcases h0 : sd.owns with _ | l
    · exact absurd h0 howns
    · simp only [processEdge, hs, ht, htype, h0, Option.isSome_some,
        if_true]
      exact ⟨trivial, rfl⟩
  · intro sguid tguid sd td hs ht hsl htl hne htype howns
    have hl1 : guidLookup
        (guidUpdate ds sguid
          { sd with owns := some ⟨sguid, tguid, edge.importance⟩ }) tguid =
        some td :=
      (guidLookup_guidUpdate_ne ds sguid tguid _ (Ne.symm hne)).trans htl
    have hred : processEdge ds edge =
        (guidUpdate
          (guidUpdate ds sguid
            { sd with owns := some ⟨sguid, tguid, edge.importance⟩ })
          tguid
          { td with
            ownedBy := td.ownedBy ++ [⟨sguid, tguid, edge.importance⟩] },
         []) := by
      simp only [processEdge, hs, ht, Option.some_bind, hsl, htl, htype,
        howns, Option.isSome_none, Bool.false_eq_true, if_false,
        Option.getD_some, hl1]
    refine ⟨by rw [hred], ?_, ?_⟩
    · rw [hred]
      have := guidLookup_guidUpdate_ne
        (guidUpdate ds sguid
          { sd with owns := some ⟨sguid, tguid, edge.importance⟩ })
        tguid sguid
        { td with
          ownedBy := td.ownedBy ++ [⟨sguid, tguid, edge.importance⟩] } hne
      rw [this]
      exact guidLookup_guidUpdate_self ds sguid _ (by rw [hsl]; rfl)
    · rw [hred]
      exact guidLookup_guidUpdate_self _ tguid _ (by rw [hl1]; rfl)
  · intro sguid tguid sd td hs ht hsl htl hne htype
    have hl1 : guidLookup
        (guidUpdate ds sguid
          { sd with
            retains := sd.retains ++ [⟨sguid, tguid, edge.importance⟩] })
        tguid = some td :=
      (guidLookup_guidUpdate_ne ds sguid tguid _ (Ne.symm hne)).trans htl
    have hred : processEdge ds edge =
        (guidUpdate
          (guidUpdate ds sguid
            { sd with
              retains := sd.retains ++ [⟨sguid, tguid, edge.importance⟩] })
          tguid
          { td with
            retainedBy := td.retainedBy ++ [⟨sguid, tguid, edge.importance⟩] },
         []) := by
      simp only [processEdge, hs, ht, Option.some_bind, hsl, htl, htype,
        Option.getD_some, hl1]
    refine ⟨by rw [hred], ?_, ?_⟩
    · rw [hred]
      have := guidLookup_guidUpdate_ne
        (guidUpdate ds sguid
          { sd with
            retains := sd.retains ++ [⟨sguid, tguid, edge.importance⟩] })
        tguid sguid
        { td with
          retainedBy := td.retainedBy ++ [⟨sguid, tguid, edge.importance⟩] }
        hne
      rw [this]
      exact guidLookup_guidUpdate_self ds sguid _ (by rw [hsl]; rfl)
    · rw [hred]
      exact guidLookup_guidUpdate_self _ tguid _ (by rw [hl1]; rfl)

/-- C7 witness: in an index with dumps a, b, c where a already owns b, an
ownership edge a→c warns and changes nothing, and a retention edge a→c
appends to a.retains and c.retainedBy. -/
theorem memory_edge_claim_witness :
    ((processEdge
        [("a", { fullName := "x", owns := some ⟨"a", "b", none⟩ }),
         ("b", { fullName := "x/y" }), ("c", { fullName := "z" })]
        { source := some "a", target := some "c",
          edgeType := some "ownership" }).1 =
      [("a", { fullName := "x", owns := some ⟨"a", "b", none⟩ }),
       ("b", { fullName := "x/y" }), ("c", { fullName := "z" })] ∧
     (processEdge
        [("a", { fullName := "x", owns := some ⟨"a", "b", none⟩ }),
         ("b", { fullName := "x/y" }), ("c", { fullName := "z" })]
        { source := some "a", target := some "c",
          edgeType := some "ownership" }).2.map Warning.wtype =
      ["memory_dump_parse_error"]) ∧
    (processEdge
        [("a", { fullName := "x" }), ("c", { fullName := "z" })]
        { source := some "a", target := some "c",
          edgeType := some "retention" }).2 = [] ∧
    guidLookup (processEdge
        [("a", { fullName := "x" }), ("c", { fullName := "z" })]
        { source := some "a", target := some "c",
          edgeType := some "retention" }).1 "a" =
      some { fullName := "x", retains := [⟨"a", "c", none⟩] } ∧
    guidLookup (processEdge
        [("a", { fullName := "x" }), ("c", { fullName := "z" })]
        { source := some "a", target := some "c",
          edgeType := some "retention" }).1 "c" =
      some { fullName := "z", retainedBy := [⟨"a", "c", none⟩] } := by
  constructor
  · exact (memory_edge_claim
      [("a", { fullName := "x", owns := some ⟨"a", "b", none⟩ }),
       ("b", { fullName := "x/y" }), ("c", { fullName := "z" })]
      { source := some "a", target := some "c",
        edgeType := some "ownership" }).2.2.1
      { fullName := "x", owns := some ⟨"a", "b", none⟩ }
      { fullName := "z" } rfl rfl rfl (by simp)
  · have h := (memory_edge_claim
      [("a", { fullName := "x" }), ("c", { fullName := "z" })]
      { source := some "a", target := some "c",
        edgeType := some "retention" }).2.2.2.2 "a" "c"
      { fullName := "x" } { fullName := "z" } rfl rfl rfl rfl
      (by decide) rfl
    exact ⟨h.1, h.2.1, h.2.2⟩

/-- C2: the claim's predicate and the code disagree on an object carrying
samples and stackFrames but no traceEvents, and the code throws (rather
than returning false) on an object whose traceEvents array does not start
with a ph-carrying element when samples is undefined. -/
theorem canImport_claim_counterexample :
    canImportClaimed (.jobj none (some 1) true) = true ∧
    canImport (.jobj none (some 1) true) = .ok false ∧
    canImport (.jobj (some (.arrVal (some none))) none true) =
      .error .typeError := by
  refine ⟨rfl, rfl, rfl⟩

/-- C2 (amended): canImport accepts a trimmed string starting with a brace
or bracket, a nonempty array whose first element has a truthy ph, or an
object whose traceEvents is an array that either starts with a truthy-ph
element or (throwing a TypeError when samples is undefined) has a nonempty
samples array alongside a defined stackFrames; every other modelled input
yields false. -/
theorem canImport_amended (d : CanImportInput) :
    canImport d =
      if canImportThrows d then .error .typeError
      else .ok (canImportAccepts d) := by
  cases d with
  | jstr s => rfl
  | jarr firstElemPh =>
      rcases firstElemPh with _ | ⟨_ | b⟩ <;>
        simp [canImport, canImportThrows, canImportAccepts]
  | jobj traceEvents samples stackFramesDefined =>
      rcases traceEvents with _ | ⟨firstPh⟩ | _
      · rcases samples with _ | n <;> rfl
      · rcases samples with _ | n <;>
          simp only [canImport, canImportThrows, canImportAccepts,
            traceEventsFallsThrough, bne, Option.getD] <;>
          rcases h : (firstPh == some (some true)) with _ | _ <;>
          simp_all [beq_iff_eq]
      · rcases samples with _ | n <;> rfl

/-- C1: on the legacy sequence S@0/T@5/F@10 (name q, id 7, step a), the
produced slice's single sub-slice 'q:a' runs from ts=5 to ts=10, not from
ts=0 to ts=5 as claimed: for a 'T' step chain the source picks
startIndex = j, so the sub-slice starts at the step event itself. -/
theorem legacy_async_scenario_counterexample :
    (createLegacyAsyncSlices [scenario4S, scenario4T, scenario4F]).map
        (fun st => st.pushes.map (fun p =>
          p.2.subSlices.map (fun sub =>
            (sub.title, sub.start, sub.start + sub.duration)))) =
      .ok [[("q:a", timestampFromUs 5, timestampFromUs 10)]] ∧
    timestampFromUs 5 ≠ timestampFromUs 0 ∧
    timestampFromUs 10 ≠ timestampFromUs 5 := by
  refine ⟨rfl, by decide, by decide⟩

/-- C1 (amended): the importer produces exactly one async slice of
duration 10 microseconds (0.01 ms) attached to the start thread's
AsyncSliceGroup, and that slice has exactly one sub-slice named 'q:a'
whose start is ts=5 and whose end is ts=10; no warnings are emitted. -/
theorem legacy_async_scenario_amended :
    createLegacyAsyncSlices [scenario4S, scenario4T, scenario4F] =
      .ok { byName := [("q", [])],
            pushes := [(⟨1, 1⟩,
              { core := { cat := none, title := "q",
                          start := timestampFromUs 0,
                          duration := timestampFromUs 10, args := [],
                          startThread := ⟨1, 1⟩, endThread := ⟨1, 1⟩,
                          sliceId := "7", isTopLevel := true },
                subSlices := [{ cat := none, title := "q:a",
                                start := timestampFromUs 5,
                                duration := timestampFromUs 5,
                                args := [("step", .str "a")],
                                startThread := ⟨1, 1⟩,
                                endThread := ⟨1, 1⟩,
                                sliceId := "7",
                                isTopLevel := false }] })],
            warnings := [] } := by
  rfl

/-- Adding the converted difference recovers the converted endpoint. -/
theorem timestampFromUs_add_sub (a b : Int) :
    timestampFromUs a + timestampFromUs (b - a) = timestampFromUs b := by
  show Ms.mk (a + (b - a)) = Ms.mk b
  congr 1
  omega

/-- C4: in a nestable async group, a BEGIN entry the matcher left without
an END yields a slice ending at the last entry's timestamp with the
adjusted-end error string, and an unmatched END entry yields a slice
starting at the first entry's timestamp with the adjusted-start error
string; both emit an async_slice_parse_error warning and still build the
slice. -/
theorem nestable_async_claim (key : String) (entries : List AsyncEntry)
    (i : Nat) (ei elast e0 : AsyncEntry)
    (hi : entries[i]? = some ei)
    (hlast : entries[entries.length - 1]? = some elast)
    (h0 : entries[0]? = some e0) :
    (ei.event.ph = 'b' →
      natLookup (nestableMatchPass entries).endAssign i = none →
      (buildNestableSlice entries key (nestableMatchPass entries) i).map
          (fun r => (r.1.error, r.1.start, r.1.start + r.1.duration,
            r.2.2.map Warning.wtype)) =
        some
          (some "Slice has no matching END. End time has been adjusted.",
           timestampFromUs ei.event.ts, timestampFromUs elast.event.ts,
           ["async_slice_parse_error"])) ∧
    (ei.event.ph = 'e' → i ∈ (nestableMatchPass entries).unmatchedE →
      (buildNestableSlice entries key (nestableMatchPass entries) i).map
          (fun r => (r.1.error, r.1.start, r.1.start + r.1.duration,
            r.2.2.map Warning.wtype)) =
        some
          (some "Slice has no matching BEGIN. Start time has been adjusted.",
           timestampFromUs e0.event.ts, timestampFromUs ei.event.ts,
           ["async_slice_parse_error"])) := by
  constructor
  · intro hb hend
    simp [buildNestableSlice, hi, hb, hend, hlast, timestampFromUs_add_sub]
  · intro he hun
    simp [buildNestableSlice, hi, he, h0, hun, timestampFromUs_add_sub]

/-- C4 witness: index 0 of the example group is an unmatched BEGIN ending
at the last entry (ts=5) and index 3 an unmatched END starting at the
first entry (ts=0). -/
theorem nestable_async_claim_witness :
    (buildNestableSlice nestableExampleEntries "cc:7"
        (nestableMatchPass nestableExampleEntries) 0).map
        (fun r => (r.1.error, r.1.start, r.1.start + r.1.duration,
          r.2.2.map Warning.wtype)) =
      some
        (some "Slice has no matching END. End time has been adjusted.",
         timestampFromUs 0, timestampFromUs 5,
         ["async_slice_parse_error"]) ∧
    (buildNestableSlice nestableExampleEntries "cc:7"
        (nestableMatchPass nestableExampleEntries) 3).map
        (fun r => (r.1.error, r.1.start, r.1.start + r.1.duration,
          r.2.2.map Warning.wtype)) =
      some
        (some "Slice has no matching BEGIN. Start time has been adjusted.",
         timestampFromUs 0, timestampFromUs 5,
         ["async_slice_parse_error"]) := by
  constructor
  · exact (nestable_async_claim "cc:7" nestableExampleEntries 0
      _ _ _ rfl rfl rfl).1 rfl rfl
  · exact (nestable_async_claim "cc:7" nestableExampleEntries 3
      _ _ _ rfl rfl rfl).2 rfl (by decide)

/-- C6: for a v1 'f' event matched to an open flow, the flow end binds to
the slice containing ts when bp is 'e', or when bp is undefined and the
category contains 'input' or 'ipc.flow'; otherwise it binds to the next
slice after ts.  A defined bp other than 'e' emits a
flow_slice_bind_point_error warning and drops the event, leaving
flowIdToEvent (the open flows) unchanged. -/
theorem flow_f_binding_claim (lks : SliceLookups) (st : FlowState)
    (entry : FlowEntry) (nm fid : String) (fe : FlowEvt)
    (hph : entry.event.ph = 'f')
    (hname : entry.event.name = some nm)
    (hid : entry.event.id = some fid)
    (hmatch : alistLookup st.flowIdToEvent fid = some fe) :
    (∀ ps, entry.event.bp = some "e" →
      lks.findAt entry.thread (timestampFromUs entry.event.ts) = some ps →
      (processV1FlowEvent lks st entry).map
          (fun st2 => st2.inFlowPushes.map Prod.fst) =
        .ok (st.inFlowPushes.map Prod.fst ++ [ps])) ∧
    (∀ ps c, entry.event.bp = none → entry.event.cat = some c →
      (strContains c "input" || strContains c "ipc.flow") = true →
      lks.findAt entry.thread (timestampFromUs entry.event.ts) = some ps →
      (processV1FlowEvent lks st entry).map
          (fun st2 => st2.inFlowPushes.map Prod.fst) =
        .ok (st.inFlowPushes.map Prod.fst ++ [ps])) ∧
    (∀ ns c, entry.event.bp = none → entry.event.cat = some c →
      (strContains c "input" || strContains c "ipc.flow") = false →
      lks.findNext entry.thread (timestampFromUs entry.event.ts)
          entry.refGuid = some ns →
      (processV1FlowEvent lks st entry).map
          (fun st2 => st2.inFlowPushes.map Prod.fst) =
        .ok (st.inFlowPushes.map Prod.fst ++ [ns])) ∧
    (∀ bpv, entry.event.bp = some bpv → bpv ≠ "e" →
      processV1FlowEvent lks st entry =
        .ok { st with warnings := st.warnings ++
          [⟨"flow_slice_bind_point_error",
            "Flow event with invalid binding point (event.bp)."⟩] } ∧
      ({ st with warnings := st.warnings ++
          [⟨"flow_slice_bind_point_error",
            "Flow event with invalid binding point (event.bp)."⟩] } :
        FlowState).flowIdToEvent = st.flowIdToEvent) := by
  refine ⟨?_, ?_, ?_, ?_⟩
  · intro ps hbp hat
    simp [processV1FlowEvent, hname, hid, hph, hmatch, hbp, finishV1Flow,
      finishFlowEventWithV1, hat, Except.map]
  · intro ps c hbp hcat hcontains hat
    simp [processV1FlowEvent, hname, hid, hph, hmatch, hbp, hcat,
      hcontains, finishV1Flow, finishFlowEventWithV1, hat, Except.map]
  · intro ns c hbp hcat hcontains hnext
    simp [processV1FlowEvent, hname, hid, hph, hmatch, hbp, hcat,
      hcontains, finishV1Flow, finishFlowEventWithV1, hnext, Except.map]
  · intro bpv hbp hne
    refine ⟨?_, rfl⟩
    simp [processV1FlowEvent, hname, hid, hph, hmatch, hbp, hne]

/-- C6 witness: with oracles returning slice 100 for findAt and slice 200
for findNext and an open flow with id 9, a bp='e' end binds to slice 100,
a default end binds to slice 200, and a bp='x' end warns and leaves the
open flow untouched. -/
theorem flow_f_binding_claim_witness :
    ((processV1FlowEvent exampleLookups exampleFlowState exampleEndBpE).map
        (fun st2 => st2.inFlowPushes.map Prod.fst) =
      .ok [(⟨100⟩ : SliceRef)]) ∧
    ((processV1FlowEvent exampleLookups exampleFlowState
        exampleEndDefault).map
        (fun st2 => st2.inFlowPushes.map Prod.fst) =
      .ok [(⟨200⟩ : SliceRef)]) ∧
    ((processV1FlowEvent exampleLookups exampleFlowState
        exampleEndBadBp).map
        (fun st2 => st2.flowIdToEvent.map Prod.fst) =
      .ok ["9"]) := by
  refine ⟨?_, ?_, ?_⟩
  · exact (flow_f_binding_claim exampleLookups exampleFlowState
      exampleEndBpE "fl" "9" exampleOpenFlow rfl rfl rfl rfl).1
      ⟨100⟩ rfl rfl
  · exact (flow_f_binding_claim exampleLookups exampleFlowState
      exampleEndDefault "fl" "9" exampleOpenFlow rfl rfl rfl rfl).2.2.1
      ⟨200⟩ "cc" rfl rfl (by decide) rfl
  · have h := (flow_f_binding_claim exampleLookups exampleFlowState
      exampleEndBadBp "fl" "9" exampleOpenFlow rfl rfl rfl rfl).2.2.2
      "x" rfl (by decide)
    rw [h.1]
    rfl

/-- Deferred-queue pushes number their entries 0, 1, 2, ... in input
order: the sequence numbers of any built queue are exactly the range of
its length. -/
theorem buildQueue_seq (route : RawEvent → Bool) (evs : List RawEvent) :
    (buildQueue route evs).map QueueEntry.sequenceNumber =
      List.range (buildQueue route evs).length := by
  have aux : ∀ (l : List RawEvent) (q : List QueueEntry),
      q.map QueueEntry.sequenceNumber = List.range q.length →
      (l.foldl (fun q e => if route e then pushEntry q e else q) q).map
          QueueEntry.sequenceNumber =
        List.range
          (l.foldl (fun q e => if route e then pushEntry q e else q)
            q).length := by
    intro l
    induction l with
    | nil => intro q h; exact h
    | cons e rest ih =>
        intro q h
        rcases hr : route e with _ | _
        · simpa only [List.foldl_cons, hr, if_false] using ih q h
        · simp only [List.foldl_cons, hr, if_true]
          refine ih _ ?_
          simp [pushEntry, h, List.range_succ]
  exact aux evs [] rfl

/-- A list with pairwise-distinct sequence numbers that is sorted by the
non-strict drain order is sorted by the strict drain order. -/
theorem sorted_strict_of_nodup_seq (l : List QueueEntry)
    (hs : l.Sorted entryLE)
    (hn : (l.map QueueEntry.sequenceNumber).Nodup) :
    l.Sorted entryLT := by
  have hp : l.Pairwise
      (fun a b : QueueEntry => a.sequenceNumber ≠ b.sequenceNumber) :=
    List.pairwise_map.mp hn
  refine (hs.and hp).imp ?_
  rintro a b ⟨hle, hne⟩
  rcases hle with h | ⟨hts, hseq⟩
  · exact Or.inl h
  · exact Or.inr ⟨hts, lt_of_le_of_ne hseq hne⟩

/-- Any two comparator-sorted permutations of a queue with
pairwise-distinct sequence numbers coincide. -/
theorem sorted_perm_unique (q l₁ l₂ : List QueueEntry)
    (hrange : q.map QueueEntry.sequenceNumber = List.range q.length)
    (h₁ : l₁.Perm q) (h₂ : l₂.Perm q)
    (s₁ : l₁.Sorted entryLE) (s₂ : l₂.Sorted entryLE) : l₁ = l₂ := by
  have hnodup : (q.map QueueEntry.sequenceNumber).Nodup := by
    rw [hrange]
    exact List.nodup_range _
  have hn₁ : (l₁.map QueueEntry.sequenceNumber).Nodup :=
    ((h₁.map QueueEntry.sequenceNumber).nodup_iff).mpr hnodup
  have hn₂ : (l₂.map QueueEntry.sequenceNumber).Nodup :=
    ((h₂.map QueueEntry.sequenceNumber).nodup_iff).mpr hnodup
  exact List.eq_of_perm_of_sorted (h₁.trans h₂.symm)
    (sorted_strict_of_nodup_seq l₁ s₁ hn₁)
    (sorted_strict_of_nodup_seq l₂ s₂ hn₂)

/-- C3: each deferred queue (async, flow, object) numbers its entries by
input order, and any two permutations of the queue that are sorted by the
(timestamp, sequenceNumber) comparator are equal — the drain order is a
deterministic function of the input event array, so two runs on
identical input produce identical drained sequences. -/
theorem deferred_queue_claim (evs : List RawEvent)
    (q l₁ l₂ : List QueueEntry)
    (hq : q = buildQueue asyncRoute evs ∨ q = buildQueue flowRoute evs ∨
      q = buildQueue objectRoute evs)
    (h₁ : l₁.Perm q) (h₂ : l₂.Perm q)
    (s₁ : l₁.Sorted entryLE) (s₂ : l₂.Sorted entryLE) :
    l₁ = l₂ ∧
    q.map QueueEntry.sequenceNumber = List.range q.length := by
  have hrange : q.map QueueEntry.sequenceNumber = List.range q.length := by
    rcases hq with h | h | h <;> rw [h] <;> exact buildQueue_seq _ evs
  exact ⟨sorted_perm_unique q l₁ l₂ hrange h₁ h₂ s₁ s₂, hrange⟩

/-- C3 witness: a two-event async queue with equal timestamps, taken as
its own sorted permutation twice. -/
theorem deferred_queue_claim_witness :
    buildQueue asyncRoute [{ ph := 'b', ts := 5 }, { ph := 'n', ts := 5 }] =
      buildQueue asyncRoute [{ ph := 'b', ts := 5 }, { ph := 'n', ts := 5 }] ∧
    (buildQueue asyncRoute
        [{ ph := 'b', ts := 5 }, { ph := 'n', ts := 5 }]).map
      QueueEntry.sequenceNumber =
      List.range (buildQueue asyncRoute
        [{ ph := 'b', ts := 5 }, { ph := 'n', ts := 5 }]).length := by
  exact deferred_queue_claim
    [{ ph := 'b', ts := 5 }, { ph := 'n', ts := 5 }]
    (buildQueue asyncRoute [{ ph := 'b', ts := 5 }, { ph := 'n', ts := 5 }])
    (buildQueue asyncRoute [{ ph := 'b', ts := 5 }, { ph := 'n', ts := 5 }])
    (buildQueue asyncRoute [{ ph := 'b', ts := 5 }, { ph := 'n', ts := 5 }])
    (Or.inl rfl) (List.Perm.refl _) (List.Perm.refl _)
    (by decide) (by decide)

end BigRig
